import Mathlib

/-
Shallow embedding of the vidchat client (src/unnamed/part_000, the variant
with screen share, disconnect and prefixed chat; src/src/App.tsx agrees on
every handler modelled here except sendMessage, noted where relevant).
The RTCPeerConnection engine is modelled abstractly: a session description
records its kind and the track set it was created from, and addIceCandidate
records the candidate as applied at the moment the code forwards it.
-/

/-- Kind of a session description (the two halves of the exchange). -/
inductive SdpKind : Type
  | sdpOffer : SdpKind
  | sdpAnswer : SdpKind
deriving DecidableEq, Repr

/-- Abstract session description: its kind and the track ids of the peer
connection at the moment the engine created it. -/
structure Sdp : Type where
  kind : SdpKind
  tracks : List Nat
deriving DecidableEq, Repr

/-- Engine createOffer: builds an offer description from the current track set. -/
def mkOffer (ts : List Nat) : Sdp := ⟨SdpKind.sdpOffer, ts⟩

/-- Engine createAnswer: builds an answer description from the current track set. -/
def mkAnswer (ts : List Nat) : Sdp := ⟨SdpKind.sdpAnswer, ts⟩

/-- Abstract RTCPeerConnection state: descriptions, attached track ids,
candidates forwarded to the engine (in order), and whether close() was called. -/
structure PeerConnection : Type where
  localDescription : Option Sdp
  remoteDescription : Option Sdp
  tracks : List Nat
  appliedCandidates : List String
  closed : Bool
deriving DecidableEq, Repr

/-- initializePeerConnection (part_000 lines 189-210): fresh connection with
the local camera/mic tracks attached. -/
def initPeerConnection (ts : List Nat) : PeerConnection :=
  ⟨none, none, ts, [], false⟩

/-- Inbound signaling events (the socket.on handlers, part_000 lines 142-163). -/
inductive InEvent : Type
  | peerJoined : String → InEvent
  | offerMsg : Sdp → InEvent
  | answerMsg : Sdp → InEvent
  | iceCandidate : String → InEvent
  | receiveMessage : String → InEvent
deriving DecidableEq, Repr

/-- Outbound emissions on the signaling socket. -/
inductive OutMsg : Type
  | joinRoomMsg : String → String → OutMsg
  | offerMsg : Sdp → OutMsg
  | answerMsg : Sdp → OutMsg
  | iceCandidateMsg : String → OutMsg
  | sendMessageMsg : String → OutMsg
  | disconnectMsg : OutMsg
deriving DecidableEq, Repr

/-- The React component state that the claims are about: the two input
fields, the chat list, flags, the local media tracks (some once
getUserMedia succeeded), the screen share tracks currently attached, the
ids of tracks whose stop() has been called, and the peer connection ref. -/
structure AppState : Type where
  roomId : String
  userId : String
  messages : List String
  isScreenSharing : Bool
  loading : Bool
  error : String
  localStream : Option (List Nat)
  screenTracks : List Nat
  stoppedTracks : List Nat
  pc : Option PeerConnection
deriving DecidableEq, Repr

/-- joinRoom (part_000 lines 170-187): missing room or user id aborts before
any emission; otherwise emit join-room, then initialize the peer connection
when local media is ready, else record the error. -/
def joinRoom (s : AppState) : AppState × List OutMsg :=
  if s.roomId = "" ∨ s.userId = "" then (s, [])
  else
    match s.localStream with
    | some ts =>
        ({ s with loading := true, error := "",
                  pc := some (initPeerConnection ts) },
         [OutMsg.joinRoomMsg s.roomId s.userId])
    | none =>
        ({ s with loading := false,
                  error := "Failed to access media devices. Please ensure permissions are granted." },
         [OutMsg.joinRoomMsg s.roomId s.userId])

/-- createOffer (part_000 lines 212-218): guarded on the peer connection ref;
creates an offer from the current tracks, sets it as local description,
emits it. -/
def createOffer (s : AppState) : AppState × List OutMsg :=
  match s.pc with
  | none => (s, [])
  | some p =>
      let off := mkOffer p.tracks
      ({ s with pc := some { p with localDescription := some off } },
       [OutMsg.offerMsg off])

/-- handleOffer (part_000 lines 220-229): guarded on the peer connection ref;
sets the remote description, creates an answer from the current tracks, sets
it as local description, emits exactly one answer. -/
def handleOffer (s : AppState) (off : Sdp) : AppState × List OutMsg :=
  match s.pc with
  | none => (s, [])
  | some p =>
      let ans := mkAnswer p.tracks
      ({ s with pc := some { p with remoteDescription := some off,
                                    localDescription := some ans } },
       [OutMsg.answerMsg ans])

/-- The answer handler (part_000 lines 151-155): sets the remote description
when the peer connection exists. -/
def handleAnswer (s : AppState) (ans : Sdp) : AppState × List OutMsg :=
  match s.pc with
  | none => (s, [])
  | some p =>
      ({ s with pc := some { p with remoteDescription := some ans } }, [])

/-- The ice-candidate handler (part_000 lines 156-160): forwards the candidate
to the engine immediately when the peer connection exists; there is no buffer. -/
def handleIceCandidate (s : AppState) (c : String) : AppState × List OutMsg :=
  match s.pc with
  | none => (s, [])
  | some p =>
      ({ s with pc := some { p with appliedCandidates := p.appliedCandidates ++ [c] } },
       [])

/-- The receive-message handler (part_000 lines 161-163): appends to the list. -/
def handleReceiveMessage (s : AppState) (m : String) : AppState × List OutMsg :=
  ({ s with messages := s.messages ++ [m] }, [])

/-- The user-connected handler (part_000 lines 143-148): creates an offer only
when local media is ready. -/
def handlePeerJoined (s : AppState) : AppState × List OutMsg :=
  match s.localStream with
  | some _ => createOffer s
  | none => (s, [])

/-- Dispatch of one inbound signaling event to its handler. -/
def handleEvent (s : AppState) : InEvent → AppState × List OutMsg
  | InEvent.peerJoined _ => handlePeerJoined s
  | InEvent.offerMsg o => handleOffer s o
  | InEvent.answerMsg a => handleAnswer s a
  | InEvent.iceCandidate c => handleIceCandidate s c
  | InEvent.receiveMessage m => handleReceiveMessage s m

/-- A run: process a list of inbound events in order, collecting emissions. -/
def run (s : AppState) : List InEvent → AppState × List OutMsg
  | [] => (s, [])
  | e :: es =>
      let r1 := handleEvent s e
      let r2 := run r1.fst es
      (r2.fst, r1.snd ++ r2.snd)

/-- sendMessage (part_000 lines 231-236): empty message is a no-op; otherwise
the text prefixed with the user id is emitted and appended locally.
(App.tsx lines 212-217 differ: it emits the raw text and echoes Me: text.) -/
def sendMessage (s : AppState) (msg : String) : AppState × List OutMsg :=
  if msg = "" then (s, [])
  else
    ({ s with messages := s.messages ++ [s.userId ++ ": " ++ msg] },
     [OutMsg.sendMessageMsg (s.userId ++ ": " ++ msg)])

/-- startScreenShare success path (part_000 lines 238-255): when the peer
connection exists, the display tracks are appended to it and the sharing flag
is set; nothing is emitted and no description is touched. -/
def startScreenShare (s : AppState) (screenTs : List Nat) : AppState × List OutMsg :=
  match s.pc with
  | none => (s, [])
  | some p =>
      ({ s with pc := some { p with tracks := p.tracks ++ screenTs },
                screenTracks := screenTs,
                isScreenSharing := true },
       [])

/-- stopScreenShare (part_000 lines 257-264): stops the screen tracks and
clears the flag; emits nothing. -/
def stopScreenShare (s : AppState) : AppState × List OutMsg :=
  ({ s with stoppedTracks := s.stoppedTracks ++ s.screenTracks,
            screenTracks := [],
            isScreenSharing := false },
   [])

/-- disconnect (part_000 lines 266-269): closes the peer connection when one
exists and emits the disconnect signal. It never touches localStream or any
track. -/
def disconnect (s : AppState) : AppState × List OutMsg :=
  match s.pc with
  | none => (s, [OutMsg.disconnectMsg])
  | some p =>
      ({ s with pc := some { p with closed := true } }, [OutMsg.disconnectMsg])

/-- Negotiation phases of the spec state machine, read off the code state. -/
inductive Phase : Type
  | noSession : Phase
  | idlePhase : Phase
  | offering : Phase
  | connected : Phase
  | closedPhase : Phase
deriving DecidableEq, Repr

/-- Mapping of the spec phases onto the concrete code state: no peer
connection means no session; a closed connection is Closed; a remote
description applied means Connected; a local description sent but no remote
one means Offering; a fresh connection is Idle. -/
def phase (s : AppState) : Phase :=
  match s.pc with
  | none => Phase.noSession
  | some p =>
      if p.closed then Phase.closedPhase
      else if p.remoteDescription.isSome then Phase.connected
      else if p.localDescription.isSome then Phase.offering
      else Phase.idlePhase

/-- Number of offer emissions in an output stream. -/
def countOffers : List OutMsg → Nat
  | [] => 0
  | OutMsg.offerMsg _ :: ms => countOffers ms + 1
  | _ :: ms => countOffers ms

/-- Number of PeerJoined events in an inbound event list. -/
def countPeerJoined : List InEvent → Nat
  | [] => 0
  | InEvent.peerJoined _ :: es => countPeerJoined es + 1
  | _ :: es => countPeerJoined es

/-- Number of Answer events in an inbound event list. -/
def countAnswerEvents : List InEvent → Nat
  | [] => 0
  | InEvent.answerMsg _ :: es => countAnswerEvents es + 1
  | _ :: es => countAnswerEvents es

/-- The ICE candidates carried by an inbound event list, in receipt order. -/
def candidatesOf : List InEvent → List String
  | [] => []
  | InEvent.iceCandidate c :: es => c :: candidatesOf es
  | _ :: es => candidatesOf es

/-- Modelled from the spec: the signaling relay (the backend is not part of
this repository) forwards a send-message payload unchanged to the other room
member as a receive-message event. -/
def relayChat (text : String) : String := text

/-- A state after getUserMedia succeeded and both fields were filled. -/
def baseState : AppState :=
  { roomId := "r1", userId := "alice", messages := [],
    isScreenSharing := false, loading := false, error := "",
    localStream := some [1, 2], screenTracks := [], stoppedTracks := [],
    pc := none }

/-- The state right after a successful joinRoom: fresh peer connection. -/
def joinedState : AppState := (joinRoom baseState).fst

/-- A Connected state: the peer joined, our offer went out, their answer
was applied as remote description. -/
def connectedState : AppState :=
  (run joinedState [InEvent.peerJoined "bob", InEvent.answerMsg (mkAnswer [9])]).fst

/-- The fresh peer connection held by joinedState. -/
def pcFresh : PeerConnection := initPeerConnection [1, 2]

/-- The peer connection held by connectedState. -/
def pcConnected : PeerConnection :=
  { localDescription := some (mkOffer [1, 2]),
    remoteDescription := some (mkAnswer [9]),
    tracks := [1, 2], appliedCandidates := [], closed := false }

/-- A state with the room id field left empty. -/
def noRoomState : AppState := { baseState with roomId := "" }

/-- The second peer of the chat scenario, joined as bob. -/
def bobJoined : AppState := (joinRoom { baseState with userId := "bob" }).fst

/-- C8: joinRoom with a missing room identifier or user identifier is rejected
before any network activity: nothing is emitted, no peer connection is
created, and the state is unchanged. -/
theorem joinRoom_missing_ids_noop (s : AppState)
    (h : s.roomId = "" ∨ s.userId = "") :
    joinRoom s = (s, []) := by
  unfold joinRoom
  rw [if_pos h]

/-- Witness for C8 at a concrete state with an empty room id. -/
theorem joinRoom_missing_ids_noop_witness :
    (noRoomState.roomId = "" ∨ noRoomState.userId = "") ∧
    joinRoom noRoomState = (noRoomState, []) :=
  ⟨Or.inl rfl, joinRoom_missing_ids_noop noRoomState (Or.inl rfl)⟩

/-- C9: sendMessage with the empty string is a no-op in every state: nothing
is emitted and the local message list is unchanged. -/
theorem sendMessage_empty_noop (s : AppState) : sendMessage s "" = (s, []) := by
  simp [sendMessage]

/-- C10: when the peer connection reference is null, createOffer and
handleOffer are total no-ops: no description is created or applied and no
message is emitted. -/
theorem null_pc_noop (s : AppState) (o : Sdp) (h : s.pc = none) :
    createOffer s = (s, []) ∧ handleOffer s o = (s, []) := by
  constructor
  · simp [createOffer, h]
  · simp [handleOffer, h]

/-- Witness for C10 at the pre-join state, whose pc reference is null. -/
theorem null_pc_noop_witness :
    baseState.pc = none ∧
    (createOffer baseState = (baseState, []) ∧
     handleOffer baseState (mkOffer [7]) = (baseState, [])) :=
  ⟨rfl, null_pc_noop baseState (mkOffer [7]) rfl⟩

/-- C4: on an Offer received while Idle or Connected, the code applies the
offer as remote description, creates a local answer from the current track
set, sets it as local description, and emits exactly one Answer. -/
theorem handleOffer_applies_and_answers (s : AppState) (p : PeerConnection)
    (o : Sdp) (hp : s.pc = some p)
    (hph : phase s = Phase.idlePhase ∨ phase s = Phase.connected) :
    handleOffer s o =
      ({ s with pc := some { p with remoteDescription := some o,
                                    localDescription := some (mkAnswer p.tracks) } },
       [OutMsg.answerMsg (mkAnswer p.tracks)]) := by
  simp [handleOffer, hp]

/-- Witness for C4 at the freshly joined (Idle) state. -/
theorem handleOffer_applies_and_answers_witness :
    joinedState.pc = some pcFresh ∧
    phase joinedState = Phase.idlePhase ∧
    handleOffer joinedState (mkOffer [7]) =
      ({ joinedState with pc := some { pcFresh with
            remoteDescription := some (mkOffer [7]),
            localDescription := some (mkAnswer pcFresh.tracks) } },
       [OutMsg.answerMsg (mkAnswer pcFresh.tracks)]) :=
  ⟨by decide, by decide,
   handleOffer_applies_and_answers joinedState pcFresh (mkOffer [7]) (by decide)
     (Or.inl (by decide))⟩

/-- C7: alice sends the chat text hi; the emitted payload is the text with
the sender id prefix, and bob receiving the relayed payload ends with the
message list containing exactly that prefixed line. -/
theorem chat_scenario_alice_bob :
    (sendMessage joinedState "hi").snd = [OutMsg.sendMessageMsg "alice: hi"] ∧
    (handleReceiveMessage bobJoined (relayChat "alice: hi")).fst.messages =
      ["alice: hi"] := by
  decide

/-- C2 counterexample: from a Connected state, adding a screen share track
emits no message at all — in particular, no new offer is created or sent, so
no additional Offer/Answer round is triggered. -/
theorem screenShare_sends_no_offer :
    phase connectedState = Phase.connected ∧
    (startScreenShare connectedState [5]).snd = [] ∧
    countOffers (startScreenShare connectedState [5]).snd = 0 := by
  decide

/-- C2 amended: when the peer connection exists, startScreenShare appends
the screen tracks to the existing track set (pre-existing tracks remain
attached), sets the sharing flag, leaves the descriptions untouched and
emits nothing — no renegotiation round occurs. -/
theorem startScreenShare_appends_tracks_no_offer (s : AppState)
    (p : PeerConnection) (ts : List Nat) (hp : s.pc = some p) :
    startScreenShare s ts =
      ({ s with pc := some { p with tracks := p.tracks ++ ts },
                screenTracks := ts, isScreenSharing := true }, []) := by
  simp [startScreenShare, hp]

/-- Witness for the amended C2 at the Connected state. -/
theorem startScreenShare_appends_tracks_no_offer_witness :
    connectedState.pc = some pcConnected ∧
    startScreenShare connectedState [5] =
      (({ connectedState with
            pc := some { pcConnected with tracks := pcConnected.tracks ++ [5] },
            screenTracks := [5], isScreenSharing := true }), []) :=
  ⟨by decide,
   startScreenShare_appends_tracks_no_offer connectedState pcConnected [5] (by decide)⟩

/-- C3 counterexample: from the Connected state, which owns local tracks 1
and 2, disconnect does transition to Closed but stops no track: the set of
stopped tracks stays empty while the local stream still owns its tracks. -/
theorem disconnect_does_not_stop_tracks :
    phase connectedState = Phase.connected ∧
    connectedState.localStream = some [1, 2] ∧
    phase (disconnect connectedState).fst = Phase.closedPhase ∧
    (disconnect connectedState).fst.stoppedTracks = [] := by
  decide

/-- C3 amended: when a peer connection exists, disconnect closes it (phase
becomes Closed) and emits the disconnect signal, but stops no locally owned
track; a second disconnect leaves the state unchanged and raises no error
(it merely re-emits the signal). -/
theorem disconnect_closes_pc_idempotent (s : AppState) (p : PeerConnection)
    (hp : s.pc = some p) :
    disconnect s = ({ s with pc := some { p with closed := true } },
                    [OutMsg.disconnectMsg]) ∧
    (disconnect (disconnect s).fst).fst = (disconnect s).fst ∧
    (disconnect s).fst.stoppedTracks = s.stoppedTracks ∧
    phase (disconnect s).fst = Phase.closedPhase := by
  refine ⟨by simp [disconnect, hp], ?_, by simp [disconnect, hp], ?_⟩
  · simp [disconnect, hp]
  · simp [disconnect, hp, phase]

/-- Witness for the amended C3 at the Connected state. -/
theorem disconnect_closes_pc_idempotent_witness :
    connectedState.pc = some pcConnected ∧
    (disconnect connectedState =
       ({ connectedState with pc := some { pcConnected with closed := true } },
        [OutMsg.disconnectMsg]) ∧
     (disconnect (disconnect connectedState).fst).fst = (disconnect connectedState).fst ∧
     (disconnect connectedState).fst.stoppedTracks = connectedState.stoppedTracks ∧
     phase (disconnect connectedState).fst = Phase.closedPhase) := by
  refine ⟨by decide, ?_, ?_, ?_, ?_⟩
  all_goals have h := disconnect_closes_pc_idempotent connectedState pcConnected (by decide)
  · exact h.1
  · exact h.2.1
  · exact h.2.2.1
  · exact h.2.2.2

/-- C1 counterexample: in the freshly joined state no remote description is
set, yet the very first candidate received is forwarded to the engine at
once: after one IceCandidate event the applied list already holds it while
the remote description is still absent — it was not buffered until a remote
description was set. -/
theorem iceApplied_before_remoteDescription :
    Option.map PeerConnection.appliedCandidates
        (handleIceCandidate joinedState "c1").fst.pc = some ["c1"] ∧
    Option.map PeerConnection.remoteDescription
        (handleIceCandidate joinedState "c1").fst.pc = some none := by
  decide

/-- One inbound event preserves the peer connection and extends its applied
candidate list by exactly the candidates the event carries. -/
theorem handleEvent_candidates (s : AppState) (p : PeerConnection)
    (e : InEvent) (hp : s.pc = some p) :
    ∃ q, (handleEvent s e).fst.pc = some q ∧
      q.appliedCandidates = p.appliedCandidates ++ candidatesOf [e] := by
  cases e with
  | peerJoined u =>
      cases hls : s.localStream with
      | none =>
          exact ⟨p, by simp [handleEvent, handlePeerJoined, hls, hp],
                 by simp [candidatesOf]⟩
      | some ts =>
          refine ⟨{ p with localDescription := some (mkOffer p.tracks) }, ?_, ?_⟩
          · simp [handleEvent, handlePeerJoined, hls, createOffer, hp]
          · simp [candidatesOf]
  | offerMsg o =>
      refine ⟨{ p with remoteDescription := some o,
                       localDescription := some (mkAnswer p.tracks) }, ?_, ?_⟩
      · simp [handleEvent, handleOffer, hp]
      · simp [candidatesOf]
  | answerMsg a =>
      refine ⟨{ p with remoteDescription := some a }, ?_, ?_⟩
      · simp [handleEvent, handleAnswer, hp]
      · simp [candidatesOf]
  | iceCandidate c =>
      refine ⟨{ p with appliedCandidates := p.appliedCandidates ++ [c] }, ?_, ?_⟩
      · simp [handleEvent, handleIceCandidate, hp]
      · simp [candidatesOf]
  | receiveMessage m =>
      exact ⟨p, by simp [handleEvent, handleReceiveMessage, hp],
             by simp [candidatesOf]⟩

/-- Splitting the candidates of an event list at its head. -/
theorem candidatesOf_cons (e : InEvent) (es : List InEvent) :
    candidatesOf (e :: es) = candidatesOf [e] ++ candidatesOf es := by
  cases e <;> simp [candidatesOf]

/-- C1 amended: there is no candidate buffer. Whenever the peer connection
exists, every received candidate is forwarded to the engine immediately, in
receipt order, whether or not a remote description has been set: after any
run the applied list is the prior list extended by exactly the candidates
of the run, in order. Candidates received with no peer connection are
dropped. -/
theorem iceCandidates_forwarded_immediately (s : AppState)
    (p : PeerConnection) (evs : List InEvent) (hp : s.pc = some p) :
    ∃ q, (run s evs).fst.pc = some q ∧
      q.appliedCandidates = p.appliedCandidates ++ candidatesOf evs := by
  induction evs generalizing s p with
  | nil => exact ⟨p, by simp [run, hp], by simp [candidatesOf]⟩
  | cons e es ih =>
      obtain ⟨p1, hp1, hc1⟩ := handleEvent_candidates s p e hp
      obtain ⟨q, hq, hcq⟩ := ih (handleEvent s e).fst p1 hp1
      refine ⟨q, ?_, ?_⟩
      · simpa [run] using hq
      · rw [hcq, hc1, List.append_assoc, ← candidatesOf_cons]

/-- Witness for the amended C1: two candidates received right after joining
are applied at once, in receipt order. -/
theorem iceCandidates_forwarded_immediately_witness :
    joinedState.pc = some pcFresh ∧
    ∃ q, (run joinedState [InEvent.iceCandidate "c1", InEvent.iceCandidate "c2"]).fst.pc = some q ∧
      q.appliedCandidates =
        pcFresh.appliedCandidates ++
          candidatesOf [InEvent.iceCandidate "c1", InEvent.iceCandidate "c2"] :=
  ⟨by decide,
   iceCandidates_forwarded_immediately joinedState pcFresh
     [InEvent.iceCandidate "c1", InEvent.iceCandidate "c2"] (by decide)⟩

/-- C5 counterexample: from the freshly joined Idle state, a run delivering
two PeerJoined events and no Answer makes the local side emit two Offers —
a second Offer is sent with no intervening Answer and no Closed transition,
and two local offers are then outstanding. -/
theorem double_peerJoined_double_offer :
    phase joinedState = Phase.idlePhase ∧
    countOffers (run joinedState [InEvent.peerJoined "x", InEvent.peerJoined "y"]).snd = 2 ∧
    countAnswerEvents [InEvent.peerJoined "x", InEvent.peerJoined "y"] = 0 := by
  decide

/-- One inbound event never changes the localStream field. -/
theorem handleEvent_localStream (s : AppState) (e : InEvent) :
    (handleEvent s e).fst.localStream = s.localStream := by
  cases e with
  | peerJoined u =>
      cases hls : s.localStream with
      | none => simp [handleEvent, handlePeerJoined, hls]
      | some ts =>
          cases hp : s.pc with
          | none => simp [handleEvent, handlePeerJoined, hls, createOffer, hp]
          | some p => simp [handleEvent, handlePeerJoined, hls, createOffer, hp]
  | offerMsg o => cases hp : s.pc <;> simp [handleEvent, handleOffer, hp]
  | answerMsg a => cases hp : s.pc <;> simp [handleEvent, handleAnswer, hp]
  | iceCandidate c => cases hp : s.pc <;> simp [handleEvent, handleIceCandidate, hp]
  | receiveMessage m => simp [handleEvent, handleReceiveMessage]

/-- One inbound event never creates or removes the peer connection. -/
theorem handleEvent_pcIsSome (s : AppState) (e : InEvent) :
    (handleEvent s e).fst.pc.isSome = s.pc.isSome := by
  cases e with
  | peerJoined u =>
      cases hls : s.localStream with
      | none => simp [handleEvent, handlePeerJoined, hls]
      | some ts =>
          cases hp : s.pc with
          | none => simp [handleEvent, handlePeerJoined, hls, createOffer, hp]
          | some p => simp [handleEvent, handlePeerJoined, hls, createOffer, hp]
  | offerMsg o => cases hp : s.pc <;> simp [handleEvent, handleOffer, hp]
  | answerMsg a => cases hp : s.pc <;> simp [handleEvent, handleAnswer, hp]
  | iceCandidate c => cases hp : s.pc <;> simp [handleEvent, handleIceCandidate, hp]
  | receiveMessage m => simp [handleEvent, handleReceiveMessage]

/-- With media ready and the connection initialized, one inbound event emits
exactly one Offer when it is a PeerJoined and none otherwise. -/
theorem handleEvent_offers (s : AppState) (e : InEvent)
    (h1 : s.localStream.isSome) (h2 : s.pc.isSome) :
    countOffers (handleEvent s e).snd = countPeerJoined [e] := by
  cases e with
  | peerJoined u =>
      obtain ⟨ts, hls⟩ := Option.isSome_iff_exists.mp h1
      obtain ⟨p, hp⟩ := Option.isSome_iff_exists.mp h2
      simp [handleEvent, handlePeerJoined, hls, createOffer, hp, countOffers,
            countPeerJoined]
  | offerMsg o =>
      cases hp : s.pc <;>
        simp [handleEvent, handleOffer, hp, countOffers, countPeerJoined]
  | answerMsg a =>
      cases hp : s.pc <;>
        simp [handleEvent, handleAnswer, hp, countOffers, countPeerJoined]
  | iceCandidate c =>
      cases hp : s.pc <;>
        simp [handleEvent, handleIceCandidate, hp, countOffers, countPeerJoined]
  | receiveMessage m =>
      simp [handleEvent, handleReceiveMessage, countOffers, countPeerJoined]

/-- countOffers distributes over append. -/
theorem countOffers_append (xs ys : List OutMsg) :
    countOffers (xs ++ ys) = countOffers xs + countOffers ys := by
  induction xs with
  | nil => simp [countOffers]
  | cons x xs ih => cases x <;> simp [countOffers, ih] <;> omega

/-- Splitting the PeerJoined count of an event list at its head. -/
theorem countPeerJoined_cons (e : InEvent) (es : List InEvent) :
    countPeerJoined (e :: es) = countPeerJoined [e] + countPeerJoined es := by
  cases e <;> simp [countPeerJoined] <;> omega

/-- C5 amended: the code sends exactly one Offer per PeerJoined event it
receives (local media ready, peer connection initialized), with no guard
against repeats: over any run the number of Offers emitted equals the
number of PeerJoined events received. In particular a run delivering a
single PeerJoined and no Answer emits exactly one Offer, but a repeated
PeerJoined produces a duplicate Offer with no intervening Answer. -/
theorem one_offer_per_peerJoined (s : AppState) (evs : List InEvent)
    (h1 : s.localStream.isSome) (h2 : s.pc.isSome) :
    countOffers (run s evs).snd = countPeerJoined evs := by
  induction evs generalizing s with
  | nil => simp [run, countOffers, countPeerJoined]
  | cons e es ih =>
      have h1n : (handleEvent s e).fst.localStream.isSome := by
        rw [handleEvent_localStream]; exact h1
      have h2n : (handleEvent s e).fst.pc.isSome := by
        rw [handleEvent_pcIsSome]; exact h2
      have hrest := ih (handleEvent s e).fst h1n h2n
      have hhead := handleEvent_offers s e h1 h2
      simp only [run, countOffers_append, hhead, hrest]
      rw [countPeerJoined_cons e es]

/-- Witness for the amended C5: from the joined state, the run delivering
exactly one PeerJoined emits exactly one Offer. -/
theorem one_offer_per_peerJoined_witness :
    joinedState.localStream.isSome = true ∧ joinedState.pc.isSome = true ∧
    countOffers (run joinedState [InEvent.peerJoined "bob"]).snd =
      countPeerJoined [InEvent.peerJoined "bob"] :=
  ⟨by decide, by decide,
   one_offer_per_peerJoined joinedState [InEvent.peerJoined "bob"]
     (by decide) (by decide)⟩

/-- A single non-PeerJoined inbound event emits no Offer. -/
theorem handleEvent_no_offer (s : AppState) (e : InEvent)
    (h : countPeerJoined [e] = 0) :
    countOffers (handleEvent s e).snd = 0 := by
  cases e with
  | peerJoined u => simp [countPeerJoined] at h
  | offerMsg o =>
      cases hp : s.pc <;> simp [handleEvent, handleOffer, hp, countOffers]
  | answerMsg a =>
      cases hp : s.pc <;> simp [handleEvent, handleAnswer, hp, countOffers]
  | iceCandidate c =>
      cases hp : s.pc <;> simp [handleEvent, handleIceCandidate, hp, countOffers]
  | receiveMessage m =>
      simp [handleEvent, handleReceiveMessage, countOffers]

/-- A run containing no PeerJoined event emits no Offer. -/
theorem run_no_peerJoined_no_offer (s : AppState) (evs : List InEvent)
    (h : countPeerJoined evs = 0) :
    countOffers (run s evs).snd = 0 := by
  induction evs generalizing s with
  | nil => simp [run, countOffers]
  | cons e es ih =>
      have hsplit := countPeerJoined_cons e es
      have he : countPeerJoined [e] = 0 := by omega
      have hes : countPeerJoined es = 0 := by omega
      simp only [run, countOffers_append, handleEvent_no_offer s e he,
                 ih (handleEvent s e).fst hes]

/-- C6: only the PeerJoined handler ever initiates an Offer. A side that
never observes PeerJoined never emits one: any run without a PeerJoined
event emits no Offer, and none of the local operations (joinRoom,
sendMessage, startScreenShare, stopScreenShare, disconnect) ever emits an
Offer either. -/
theorem no_offer_without_peerJoined (s : AppState) (evs : List InEvent)
    (m : String) (ts : List Nat) (h : countPeerJoined evs = 0) :
    countOffers (run s evs).snd = 0 ∧
    countOffers (joinRoom s).snd = 0 ∧
    countOffers (sendMessage s m).snd = 0 ∧
    countOffers (startScreenShare s ts).snd = 0 ∧
    countOffers (stopScreenShare s).snd = 0 ∧
    countOffers (disconnect s).snd = 0 := by
  refine ⟨run_no_peerJoined_no_offer s evs h, ?_, ?_, ?_, ?_, ?_⟩
  · by_cases hc : s.roomId = "" ∨ s.userId = ""
    · simp [joinRoom, hc, countOffers]
    · cases hls : s.localStream <;> simp [joinRoom, hc, hls, countOffers]
  · by_cases hm : m = "" <;> simp [sendMessage, hm, countOffers]
  · cases hp : s.pc <;> simp [startScreenShare, hp, countOffers]
  · simp [stopScreenShare, countOffers]
  · cases hp : s.pc <;> simp [disconnect, hp, countOffers]

/-- Witness for C6 at the joined state with a run holding an inbound offer,
a candidate and a chat message but no PeerJoined. -/
theorem no_offer_without_peerJoined_witness :
    countPeerJoined [InEvent.offerMsg (mkOffer [7]), InEvent.iceCandidate "c",
                     InEvent.receiveMessage "yo"] = 0 ∧
    (countOffers (run joinedState [InEvent.offerMsg (mkOffer [7]), InEvent.iceCandidate "c",
                     InEvent.receiveMessage "yo"]).snd = 0 ∧
     countOffers (joinRoom joinedState).snd = 0 ∧
     countOffers (sendMessage joinedState "hi").snd = 0 ∧
     countOffers (startScreenShare joinedState [5]).snd = 0 ∧
     countOffers (stopScreenShare joinedState).snd = 0 ∧
     countOffers (disconnect joinedState).snd = 0) :=
  ⟨by decide,
   no_offer_without_peerJoined joinedState
     [InEvent.offerMsg (mkOffer [7]), InEvent.iceCandidate "c",
      InEvent.receiveMessage "yo"] "hi" [5] (by decide)⟩
